import Mathlib

/-!
Shallow embedding of src/RSBP.py, the Roblox skybox preview tool.

The 3D preview engine (class SkyboxPreview) is modelled as a Lean state
record, with the OpenGL context abstracted as a set of live texture ids
plus a fresh-id counter (glGenTextures returns a fresh id, glDeleteTextures
removes an id from the live set).  Geometry is exact rational arithmetic;
the float math of cubeToSphereUV is modelled over the reals, with the two
Python failure modes (ZeroDivisionError when the length is zero, ValueError
from math.asin outside [-1, 1]) modelled as an Option result.
-/

namespace RSBP

/-- FACE_NAMES list, src/RSBP.py line 14. -/
def FACE_NAMES : List String := ["ft", "bk", "lf", "rt", "up", "dn"]

/-- A 3D point with exact rational coordinates. -/
abbrev Point3 := ℚ × ℚ × ℚ

/-- The eight cube corners from drawSkybox (lines 65-74), with size = 1. -/
def vertices : List Point3 :=
  [(-1, -1, 1), (1, -1, 1), (1, 1, 1), (-1, 1, 1),
   (-1, -1, -1), (1, -1, -1), (1, 1, -1), (-1, 1, -1)]

/-- Python list indexing vertices[i] (all indices used are in range). -/
def getV (i : ℕ) : Point3 := vertices.getD i (0, 0, 0)

/-- The texcoords list of drawFaceFlat (line 103). -/
def texcoords : List (ℚ × ℚ) := [(0, 0), (1, 0), (1, 1), (0, 1)]

/-- The faces dict of drawSkybox (lines 76-83), as an insertion-ordered
association list: face name to (vertex index quad, per-corner uv list).
Note the dict literal lists rt before lf. -/
def faces : List (String × (List ℕ × List (ℚ × ℚ))) :=
  [("ft", ([0, 1, 2, 3], [(0, 0), (1, 0), (1, 1), (0, 1)])),
   ("bk", ([5, 4, 7, 6], [(0, 0), (1, 0), (1, 1), (0, 1)])),
   ("rt", ([4, 0, 3, 7], [(0, 0), (1, 0), (1, 1), (0, 1)])),
   ("lf", ([1, 5, 6, 2], [(0, 0), (1, 0), (1, 1), (0, 1)])),
   ("up", ([3, 2, 6, 7], [(0, 0), (1, 0), (1, 1), (0, 1)])),
   ("dn", ([4, 5, 1, 0], [(0, 0), (1, 0), (1, 1), (0, 1)]))]

/-- lerp3D (lines 136-138): componentwise a[i] + (b[i] - a[i]) * t. -/
def lerp3D (a b : Point3) (t : ℚ) : Point3 :=
  (a.1 + (b.1 - a.1) * t,
   a.2.1 + (b.2.1 - a.2.1) * t,
   a.2.2 + (b.2.2 - a.2.2) * t)

/-- drawFaceFlat (lines 102-108): zip the quad's vertex indices with the
fixed texcoords and emit one (texcoord, vertex) pair per corner. -/
def drawFaceFlat (verts_idx : List ℕ) : List ((ℚ × ℚ) × Point3) :=
  (verts_idx.zip texcoords).map (fun p => (p.2, getV p.1))

/-- One column of a spherical strip (loop body, lines 121-133): with
t0 = i/sub, t1 = (i+1)/sub and s = j/sub, the two emitted vertices are
pA = lerp3D (lerp3D v0 v1 s) (lerp3D v3 v2 s) t0 and
pB = lerp3D (lerp3D v0 v1 s) (lerp3D v3 v2 s) t1. -/
def stripColumn (v0 v1 v2 v3 : Point3) (sub i j : ℕ) : Point3 × Point3 :=
  (lerp3D (lerp3D v0 v1 ((j : ℚ) / (sub : ℚ)))
          (lerp3D v3 v2 ((j : ℚ) / (sub : ℚ)))
          ((i : ℚ) / (sub : ℚ)),
   lerp3D (lerp3D v0 v1 ((j : ℚ) / (sub : ℚ)))
          (lerp3D v3 v2 ((j : ℚ) / (sub : ℚ)))
          (((i : ℚ) + 1) / (sub : ℚ)))

/-- drawFaceSpherical (lines 110-134): sub triangle strips, one per row
i < sub; each strip visits sub+1 columns j and emits the vertex pair
(pA, pB) for that column (positions only; the uv of each vertex is
cubeToSphereUV of its position). -/
def drawFaceSpherical (sub : ℕ) (verts_idx : List ℕ) :
    List (List (Point3 × Point3)) :=
  let v0 := getV (verts_idx.getD 0 0)
  let v1 := getV (verts_idx.getD 1 0)
  let v2 := getV (verts_idx.getD 2 0)
  let v3 := getV (verts_idx.getD 3 0)
  (List.range sub).map (fun i =>
    (List.range (sub + 1)).map (fun j => stripColumn v0 v1 v2 v3 sub i j))

/-- A decoded bitmap: only the dimensions matter to the claims; the pixel
payload is abstracted away. -/
structure Bitmap where
  width : ℕ
  height : ℕ

/-- State of the SkyboxPreview widget (lines 24-32), plus the abstracted
GL texture store: live is the set of live GPU texture ids, nextId the
fresh-id source for glGenTextures (ids start at 1; 0 means no texture). -/
structure SkyboxPreview where
  textures : String → Option ℕ
  live : Finset ℕ
  nextId : ℕ
  rot_x : ℤ
  rot_y : ℤ
  last_pos : Option (ℤ × ℤ)
  use_spherical_uv : Bool
  subdivide : ℕ

/-- The widget state set up by the constructor (lines 25-32):
empty texture dict, rot_x = 20, rot_y = -30, no drag anchor,
flat-cube mode, tessellation factor 20. -/
def initPreview : SkyboxPreview :=
  { textures := fun _ => none
    live := ∅
    nextId := 1
    rot_x := 20
    rot_y := -30
    last_pos := none
    use_spherical_uv := false
    subdivide := 20 }

/-- loadTexture (lines 150-164).  The Python code converts the bitmap and
uploads its bytes without any dimension or content validation; whatever
the bitmap is, it deletes the face's old texture if one exists
(glDeleteTextures), generates a fresh id (glGenTextures), and stores the
new id in the dict.  The bitmap argument therefore does not influence the
cache bookkeeping. -/
def loadTexture (face_name : String) (_img : Bitmap) (s : SkyboxPreview) :
    SkyboxPreview :=
  let live1 := match s.textures face_name with
    | some t => s.live.erase t
    | none => s.live
  let tex_id := s.nextId
  { s with
    textures := fun f => if f = face_name then some tex_id else s.textures f
    live := insert tex_id live1
    nextId := s.nextId + 1 }

/-- The preview-state effect of SkyboxGenerator.updateMode (lines 311-327):
self.preview.textures.clear() and self.preview.use_spherical_uv =
not six_mode.  (The widget enable/disable lines touch only UI glue; note
that dict.clear does not call glDeleteTextures, so live is untouched.) -/
def updateMode (six_mode : Bool) (s : SkyboxPreview) : SkyboxPreview :=
  { s with
    textures := fun _ => none
    use_spherical_uv := !six_mode }

/-- mousePressEvent (lines 166-167): capture the drag anchor. -/
def mousePressEvent (pos : ℤ × ℤ) (s : SkyboxPreview) : SkyboxPreview :=
  { s with last_pos := some pos }

/-- mouseMoveEvent (lines 169-177): when an anchor exists, add the
frame-to-frame delta to the rotation, clamp rot_x to [-90, 90]
(max (min rot_x 90) (-90)), and move the anchor to the current position. -/
def mouseMoveEvent (pos : ℤ × ℤ) (s : SkyboxPreview) : SkyboxPreview :=
  match s.last_pos with
  | none => s
  | some lp =>
    let dx := pos.1 - lp.1
    let dy := pos.2 - lp.2
    { s with
      rot_x := max (min (s.rot_x + dy) 90) (-90)
      rot_y := s.rot_y + dx
      last_pos := some pos }

/-- mouseReleaseEvent (lines 179-180): drop the drag anchor. -/
def mouseReleaseEvent (s : SkyboxPreview) : SkyboxPreview :=
  { s with last_pos := none }

/-- One face draw dispatched by drawSkybox: either the flat-quad path or
the spherical-subdivision path. -/
inductive FaceDraw
| flat : List ((ℚ × ℚ) × Point3) → FaceDraw
| spherical : List (List (Point3 × Point3)) → FaceDraw

/-- drawSkybox (lines 63-100): iterate the faces dict in insertion order;
for each face bind its texture id (0 when the dict has no entry, matching
Python truthiness of textures.get) and dispatch the flat or spherical draw
according to use_spherical_uv. -/
def drawSkybox (s : SkyboxPreview) : List (String × ℕ × FaceDraw) :=
  faces.map (fun e =>
    (e.1, (s.textures e.1).getD 0,
     if s.use_spherical_uv then
       FaceDraw.spherical (drawFaceSpherical s.subdivide e.2.1)
     else
       FaceDraw.flat (drawFaceFlat e.2.1)))

/-- math.atan2(y, x) over the reals, following the C/Python quadrant
convention.  The claims never evaluate it; only its arguments matter. -/
noncomputable def atan2 (y x : ℝ) : ℝ :=
  if 0 < x then Real.arctan (y / x)
  else if x < 0 then
    (if 0 ≤ y then Real.arctan (y / x) + Real.pi
     else Real.arctan (y / x) - Real.pi)
  else
    (if 0 < y then Real.pi / 2 else if y < 0 then -(Real.pi / 2) else 0)

/-- cubeToSphereUV (lines 140-148) over the reals.  Python raises
ZeroDivisionError when length is 0 (x/length) and math.asin raises
ValueError when its argument leaves [-1, 1]; both failure modes are
modelled as none. -/
noncomputable def cubeToSphereUV (pos : ℝ × ℝ × ℝ) : Option (ℝ × ℝ) :=
  let x := pos.1
  let y := pos.2.1
  let z := pos.2.2
  let length := Real.sqrt (x * x + y * y + z * z)
  if length = 0 then none
  else
    let nx := x / length
    let ny := y / length
    let nz := z / length
    if 1 < |ny| then none
    else some (0.5 + atan2 nz nx / (2 * Real.pi),
               0.5 - Real.arcsin ny / Real.pi)

/-- Squared Euclidean norm of a rational point (the radicand computed by
cubeToSphereUV). -/
def normSq (p : Point3) : ℚ := p.1 * p.1 + p.2.1 * p.2.1 + p.2.2 * p.2.2

/-- Inclusion of a rational point into the real-valued math. -/
noncomputable def castPoint (p : Point3) : ℝ × ℝ × ℝ :=
  ((p.1 : ℝ), (p.2.1 : ℝ), (p.2.2 : ℝ))

/-- Well-formedness of the abstracted GL store: every live id is below the
fresh-id counter, every cached id is live, and no two faces share an id.
The initial state satisfies it and loadTexture preserves it. -/
def WF (s : SkyboxPreview) : Prop :=
  (∀ t ∈ s.live, t < s.nextId) ∧
  (∀ f t, s.textures f = some t → t ∈ s.live) ∧
  (∀ f g t, s.textures f = some t → s.textures g = some t → f = g)

/-- The live GPU texture ids keyed to a given face. -/
def keyedLive (s : SkyboxPreview) (f : String) : Finset ℕ :=
  s.live.filter (fun t => s.textures f = some t)

/-- The frame-to-frame x-deltas of a pointer trace: each delta is the
current x minus the previously sampled x. -/
def xDeltas : ℤ × ℤ → List (ℤ × ℤ) → List ℤ
  | _, [] => []
  | prev, p :: ps => (p.1 - prev.1) :: xDeltas p ps

/-- Fold a list of pointer-move positions through mouseMoveEvent. -/
def processMoves (moves : List (ℤ × ℤ)) (s : SkyboxPreview) : SkyboxPreview :=
  moves.foldl (fun st p => mouseMoveEvent p st) s

/-- A concrete well-formed preview state whose cache holds texture id 7
for face ft. -/
def cachedState : SkyboxPreview :=
  { initPreview with
    textures := fun f => if f = "ft" then some 7 else none
    live := {7}
    nextId := 8 }

lemma cachedState_WF : WF cachedState := by
  refine ⟨?_, ?_, ?_⟩
  · intro t ht
    have h7 : t = 7 := by simpa [cachedState, initPreview] using ht
    subst h7
    decide
  · intro f t h
    simp only [cachedState, initPreview] at h ⊢
    split at h
    · simp only [Option.some.injEq] at h
      simp [← h]
    · exact absurd h (by simp)
  · intro f g t h1 h2
    simp only [cachedState, initPreview] at h1 h2
    split at h1 <;> split at h2 <;> simp_all

/-- Claim C1, counterexample: with texture 7 cached for face ft, switching
the render mode (updateMode) does not leave get(ft) unchanged — the
mapping is cleared. -/
theorem updateMode_changes_cache :
    cachedState.textures "ft" = some 7 ∧
    (updateMode false cachedState).textures "ft" ≠ some 7 := by
  constructor
  · rfl
  · simp [updateMode, cachedState, initPreview]

/-- Claim C1 (amended): switching the RenderMode through updateMode clears
the Texture Cache — afterwards get(face) returns no texture for every
face — and sets the spherical-uv flag to the stretch mode. -/
theorem updateMode_clears_cache (b : Bool) (s : SkyboxPreview) (f : String) :
    (updateMode b s).textures f = none ∧
    (updateMode b s).use_spherical_uv = !b :=
  ⟨rfl, rfl⟩

/-- Claim C2, counterexample: at the origin cubeToSphereUV does not return
the default uv (0.5, 0.5); the division by the zero length fails. -/
theorem cubeToSphereUV_origin_not_default :
    cubeToSphereUV (0, 0, 0) ≠ some (0.5, 0.5) := by
  simp only [cubeToSphereUV]
  norm_num
  intro h
  exact Option.noConfusion h

/-- Claim C2 (amended): for the input point (0, 0, 0) the length computed
by cubeToSphereUV is zero and the division x/length fails (Python raises
ZeroDivisionError, modelled as none); no previous uv is reused and no
default (0.5, 0.5) is produced. -/
theorem cubeToSphereUV_origin_fails :
    cubeToSphereUV (0, 0, 0) = none := by
  simp only [cubeToSphereUV]
  norm_num

/-- Claim C3, counterexample: loading a 0x0 bitmap for face ft does not
leave the cache entry unchanged — the upload is not skipped, and the face
does not keep its previous texture 7. -/
theorem loadTexture_zero_dim_not_skipped :
    cachedState.textures "ft" = some 7 ∧
    (loadTexture "ft" ⟨0, 0⟩ cachedState).textures "ft" ≠ some 7 := by
  constructor
  · rfl
  · simp [loadTexture, cachedState, initPreview]

/-- Claim C3 (amended): loadTexture performs no bitmap validation; even
for a bitmap with zero width or zero height it replaces the face's cache
entry with a freshly generated texture id, and the face's previous
texture, if any, is deleted from the live set. -/
theorem loadTexture_zero_dim_replaces (s : SkyboxPreview) (f : String)
    (b : Bitmap) (hwf : WF s) (_hb : b.width = 0 ∨ b.height = 0) :
    (loadTexture f b s).textures f = some s.nextId ∧
    ∀ t, s.textures f = some t → t ∉ (loadTexture f b s).live := by
  constructor
  · simp [loadTexture]
  · intro t ht
    have htl : t ∈ s.live := hwf.2.1 f t ht
    have htn : t < s.nextId := hwf.1 t htl
    simp only [loadTexture, ht, Finset.mem_insert, Finset.mem_erase]
    push_neg
    exact ⟨by omega, fun h => absurd rfl h⟩

theorem loadTexture_zero_dim_replaces_witness :
    WF cachedState ∧ ((Bitmap.mk 0 0).width = 0 ∨ (Bitmap.mk 0 0).height = 0) ∧
    ((loadTexture "ft" ⟨0, 0⟩ cachedState).textures "ft" = some cachedState.nextId ∧
     ∀ t, cachedState.textures "ft" = some t →
       t ∉ (loadTexture "ft" ⟨0, 0⟩ cachedState).live) :=
  ⟨cachedState_WF, Or.inl rfl,
   loadTexture_zero_dim_replaces cachedState "ft" ⟨0, 0⟩ cachedState_WF (Or.inl rfl)⟩

/-- Claim C4, counterexample: the per-frame draw order of drawSkybox is
not FACE_NAMES order — the faces dict lists rt before lf. -/
theorem drawSkybox_order_not_FACE_NAMES :
    (drawSkybox initPreview).map (fun e => e.1) ≠ FACE_NAMES := by
  simp [drawSkybox, faces, FACE_NAMES]

/-- Claim C4 (amended): on every frame drawSkybox binds and draws the six
faces in the insertion order of its faces dict — ft, bk, rt, lf, up, dn —
which swaps rt and lf relative to the FACE_NAMES declaration order. -/
theorem drawSkybox_order (s : SkyboxPreview) :
    (drawSkybox s).map (fun e => e.1) = ["ft", "bk", "rt", "lf", "up", "dn"] :=
  rfl

/-- Claim C9: for every face of the faces dict, the flat-quad path assigns
the uv coordinates (0,0), (1,0), (1,1), (0,1) to the quad's four vertices
in order. -/
theorem drawFaceFlat_uvs :
    ∀ e ∈ faces, (drawFaceFlat e.2.1).map (fun q => q.1) =
      [((0 : ℚ), (0 : ℚ)), (1, 0), (1, 1), (0, 1)] := by
  intro e he
  fin_cases he <;> rfl

theorem drawFaceFlat_uvs_witness :
    ("ft", ([0, 1, 2, 3], [((0 : ℚ), (0 : ℚ)), (1, 0), (1, 1), (0, 1)])) ∈ faces ∧
    (drawFaceFlat [0, 1, 2, 3]).map (fun q => q.1) =
      [((0 : ℚ), (0 : ℚ)), (1, 0), (1, 1), (0, 1)] :=
  ⟨by simp [faces],
   drawFaceFlat_uvs ("ft", ([0, 1, 2, 3], [((0 : ℚ), (0 : ℚ)), (1, 0), (1, 1), (0, 1)]))
     (by simp [faces])⟩

lemma processMoves_invariant (moves : List (ℤ × ℤ)) (s : SkyboxPreview)
    (prev : ℤ × ℤ) (hlp : s.last_pos = some prev)
    (hlo : -90 ≤ s.rot_x) (hhi : s.rot_x ≤ 90) :
    -90 ≤ (processMoves moves s).rot_x ∧ (processMoves moves s).rot_x ≤ 90 ∧
    (processMoves moves s).rot_y = s.rot_y + (xDeltas prev moves).sum := by
  induction moves generalizing s prev with
  | nil => exact ⟨hlo, hhi, by simp [processMoves, xDeltas]⟩
  | cons p ps ih =>
    have hm : mouseMoveEvent p s =
        { s with
          rot_x := max (min (s.rot_x + (p.2 - prev.2)) 90) (-90)
          rot_y := s.rot_y + (p.1 - prev.1)
          last_pos := some p } := by
      simp [mouseMoveEvent, hlp]
    have hstep : processMoves (p :: ps) s = processMoves ps (mouseMoveEvent p s) := rfl
    rw [hstep, hm]
    obtain ⟨h1, h2, h3⟩ :=
      ih ({ s with
            rot_x := max (min (s.rot_x + (p.2 - prev.2)) 90) (-90)
            rot_y := s.rot_y + (p.1 - prev.1)
            last_pos := some p }) p rfl (le_max_right _ _)
        (max_le (min_le_right _ _) (by norm_num))
    refine ⟨h1, h2, ?_⟩
    rw [h3]
    simp only [xDeltas, List.sum_cons]
    ring

/-- Claim C5: from the initial camera (pitch 20, yaw -30), after a press
at p0 and any finite sequence of pointer moves, the pitch stays in
[-90, 90] and the yaw equals -30 plus the sum of the frame-to-frame
x-deltas of the pointer trace. -/
theorem drag_pitch_clamped_yaw_sum (p0 : ℤ × ℤ) (moves : List (ℤ × ℤ)) :
    -90 ≤ (processMoves moves (mousePressEvent p0 initPreview)).rot_x ∧
    (processMoves moves (mousePressEvent p0 initPreview)).rot_x ≤ 90 ∧
    (processMoves moves (mousePressEvent p0 initPreview)).rot_y =
      -30 + (xDeltas p0 moves).sum := by
  have h := processMoves_invariant moves (mousePressEvent p0 initPreview) p0
    rfl (by norm_num [mousePressEvent, initPreview])
    (by norm_num [mousePressEvent, initPreview])
  exact ⟨h.1, h.2.1, by simpa [mousePressEvent, initPreview] using h.2.2⟩

lemma keyedLive_card_le_one (s : SkyboxPreview) (g : String) :
    (keyedLive s g).card ≤ 1 := by
  rcases hg : s.textures g with _ | t0
  · simp [keyedLive, hg]
  · have hsub : keyedLive s g ⊆ {t0} := by
      intro t ht
      simp only [keyedLive, Finset.mem_filter, hg, Option.some.injEq] at ht
      simp [ht.2]
    simpa using Finset.card_le_card hsub

lemma loadTexture_live_eq (f : String) (b : Bitmap) (s : SkyboxPreview) :
    (loadTexture f b s).live =
      insert s.nextId
        (match s.textures f with
         | some t => s.live.erase t
         | none => s.live) := rfl

/-- Claim C6: for any well-formed state, calling loadTexture twice for the
same face leaves exactly one live GPU texture keyed to that face (the
second call's fresh id), the first call's texture has been released, the
second call does not grow the live set, and every face has at most one
live texture. -/
theorem loadTexture_twice_single_live (s : SkyboxPreview) (f : String)
    (b1 b2 : Bitmap) (hwf : WF s) :
    keyedLive (loadTexture f b2 (loadTexture f b1 s)) f = {s.nextId + 1} ∧
    s.nextId ∉ (loadTexture f b2 (loadTexture f b1 s)).live ∧
    (loadTexture f b2 (loadTexture f b1 s)).live.card =
      (loadTexture f b1 s).live.card ∧
    ∀ g, (keyedLive (loadTexture f b2 (loadTexture f b1 s)) g).card ≤ 1 := by
  have hlive1sub :
      (match s.textures f with
       | some t => s.live.erase t
       | none => s.live) ⊆ s.live := by
    rcases s.textures f with _ | t
    · exact Finset.Subset.refl _
    · exact Finset.erase_subset _ _
  have hfresh : ∀ u, s.nextId ≤ u →
      u ∉ (match s.textures f with
           | some t => s.live.erase t
           | none => s.live) := by
    intro u hu hmem
    have := hwf.1 u (hlive1sub hmem)
    omega
  have hs1tex : (loadTexture f b1 s).textures f = some s.nextId := by
    simp [loadTexture]
  have hs2live : (loadTexture f b2 (loadTexture f b1 s)).live =
      insert (s.nextId + 1)
        (match s.textures f with
         | some t => s.live.erase t
         | none => s.live) := by
    rw [loadTexture_live_eq, hs1tex]
    show insert ((loadTexture f b1 s).nextId) (((loadTexture f b1 s).live).erase s.nextId) = _
    rw [loadTexture_live_eq]
    rw [Finset.erase_insert (hfresh s.nextId le_rfl)]
    rfl
  have hs2tex : (loadTexture f b2 (loadTexture f b1 s)).textures f =
      some (s.nextId + 1) := by
    simp [loadTexture]
  refine ⟨?_, ?_, ?_, fun g => keyedLive_card_le_one _ g⟩
  · ext t
    simp only [keyedLive, Finset.mem_filter, hs2live, hs2tex,
      Finset.mem_insert, Finset.mem_singleton, Option.some.injEq]
    constructor
    · exact fun h => h.2.symm
    · intro h
      exact ⟨Or.inl h, h.symm⟩
  · rw [hs2live]
    simp only [Finset.mem_insert]
    push_neg
    exact ⟨by omega, hfresh s.nextId le_rfl⟩
  · rw [hs2live, loadTexture_live_eq]
    rw [Finset.card_insert_of_not_mem (hfresh (s.nextId + 1) (by omega)),
      Finset.card_insert_of_not_mem (hfresh s.nextId le_rfl)]

theorem loadTexture_twice_single_live_witness :
    WF cachedState ∧
    (keyedLive (loadTexture "ft" ⟨4, 4⟩ (loadTexture "ft" ⟨4, 4⟩ cachedState)) "ft" =
      {cachedState.nextId + 1} ∧
     cachedState.nextId ∉
       (loadTexture "ft" ⟨4, 4⟩ (loadTexture "ft" ⟨4, 4⟩ cachedState)).live ∧
     (loadTexture "ft" ⟨4, 4⟩ (loadTexture "ft" ⟨4, 4⟩ cachedState)).live.card =
       (loadTexture "ft" ⟨4, 4⟩ cachedState).live.card ∧
     ∀ g, (keyedLive (loadTexture "ft" ⟨4, 4⟩ (loadTexture "ft" ⟨4, 4⟩ cachedState)) g).card ≤ 1) :=
  ⟨cachedState_WF,
   loadTexture_twice_single_live cachedState "ft" ⟨4, 4⟩ ⟨4, 4⟩ cachedState_WF⟩

lemma flatMap_pair_length (l : List (Point3 × Point3)) :
    (l.flatMap (fun pq => [pq.1, pq.2])).length = 2 * l.length := by
  induction l with
  | nil => simp
  | cons a t ih =>
    simp only [List.flatMap_cons, List.length_append, List.length_cons,
      List.length_nil, ih]
    omega

/-- Claim C7: for every tessellation factor sub at least 1, one
spherical-mode face draw emits exactly sub triangle strips, each strip
visiting sub+1 columns and emitting two vertices per column, hence
2*(sub+1) vertices per strip. -/
theorem drawFaceSpherical_strips (sub : ℕ) (verts_idx : List ℕ)
    (_hsub : 1 ≤ sub) :
    (drawFaceSpherical sub verts_idx).length = sub ∧
    ∀ strip ∈ drawFaceSpherical sub verts_idx,
      strip.length = sub + 1 ∧
      (strip.flatMap (fun pq => [pq.1, pq.2])).length = 2 * (sub + 1) := by
  constructor
  · rw [show drawFaceSpherical sub verts_idx =
        (List.range sub).map (fun i => (List.range (sub + 1)).map
          (fun j => stripColumn (getV (verts_idx.getD 0 0))
            (getV (verts_idx.getD 1 0)) (getV (verts_idx.getD 2 0))
            (getV (verts_idx.getD 3 0)) sub i j)) from rfl]
    rw [List.length_map, List.length_range]
  · intro strip hstrip
    rw [show drawFaceSpherical sub verts_idx =
        (List.range sub).map (fun i => (List.range (sub + 1)).map
          (fun j => stripColumn (getV (verts_idx.getD 0 0))
            (getV (verts_idx.getD 1 0)) (getV (verts_idx.getD 2 0))
            (getV (verts_idx.getD 3 0)) sub i j)) from rfl,
      List.mem_map] at hstrip
    obtain ⟨i, hi, rfl⟩ := hstrip
    rw [List.length_map, List.length_range, flatMap_pair_length,
      List.length_map, List.length_range]
    exact ⟨rfl, rfl⟩

theorem drawFaceSpherical_strips_witness :
    1 ≤ 2 ∧
    ((drawFaceSpherical 2 [0, 1, 2, 3]).length = 2 ∧
     ∀ strip ∈ drawFaceSpherical 2 [0, 1, 2, 3],
       strip.length = 3 ∧
       (strip.flatMap (fun pq => [pq.1, pq.2])).length = 6) :=
  ⟨by decide, drawFaceSpherical_strips 2 [0, 1, 2, 3] (by decide)⟩

/-- Claim C8: the spherical uv mapping is invariant under scaling the
input point by any k greater than 0 (normalization correctness of the
equirectangular projection). -/
theorem cubeToSphereUV_scale_invariant (p : ℝ × ℝ × ℝ) (k : ℝ)
    (hp : p ≠ (0, 0, 0)) (hk : 0 < k) :
    cubeToSphereUV (k * p.1, k * p.2.1, k * p.2.2) = cubeToSphereUV p := by
  obtain ⟨x, y, z⟩ := p
  simp only [cubeToSphereUV]
  have hsqrt : Real.sqrt (k * x * (k * x) + k * y * (k * y) + k * z * (k * z)) =
      k * Real.sqrt (x * x + y * y + z * z) := by
    rw [show k * x * (k * x) + k * y * (k * y) + k * z * (k * z) =
        k ^ 2 * (x * x + y * y + z * z) from by ring,
      Real.sqrt_mul (sq_nonneg k), Real.sqrt_sq hk.le]
  rw [hsqrt]
  have hcond : (k * Real.sqrt (x * x + y * y + z * z) = 0) ↔
      (Real.sqrt (x * x + y * y + z * z) = 0) := by
    constructor <;> intro h
    · rcases mul_eq_zero.mp h with h | h
      · exact absurd h hk.ne'
      · exact h
    · rw [h, mul_zero]
  simp only [mul_div_mul_left _ _ hk.ne']
  exact if_congr hcond rfl rfl

theorem cubeToSphereUV_scale_invariant_witness :
    ((1, 0, 0) : ℝ × ℝ × ℝ) ≠ (0, 0, 0) ∧ (0 : ℝ) < 2 ∧
    cubeToSphereUV (2 * (1 : ℝ), 2 * (0 : ℝ), 2 * (0 : ℝ)) =
      cubeToSphereUV ((1 : ℝ), (0 : ℝ), (0 : ℝ)) :=
  ⟨by simp, by norm_num,
   cubeToSphereUV_scale_invariant (1, 0, 0) 2 (by simp) (by norm_num)⟩

lemma cubeToSphereUV_isSome_of_radicand (x y z : ℝ)
    (h : 1 ≤ x * x + y * y + z * z) :
    (cubeToSphereUV (x, y, z)).isSome = true := by
  simp only [cubeToSphereUV]
  have hL1 : 1 ≤ Real.sqrt (x * x + y * y + z * z) := by
    rw [show (1 : ℝ) = Real.sqrt 1 from (Real.sqrt_one).symm]
    exact Real.sqrt_le_sqrt h
  have hLne : Real.sqrt (x * x + y * y + z * z) ≠ 0 := by linarith
  rw [if_neg hLne]
  have hyy : y * y ≤ x * x + y * y + z * z := by nlinarith
  have hyle : |y| ≤ Real.sqrt (x * x + y * y + z * z) := by
    rw [show |y| = Real.sqrt (y * y) from by rw [← Real.sqrt_sq_eq_abs]; ring_nf]
    exact Real.sqrt_le_sqrt hyy
  have hny : ¬(1 < |y / Real.sqrt (x * x + y * y + z * z)|) := by
    push_neg
    rw [abs_div,
      abs_of_nonneg (by linarith : (0 : ℝ) ≤ Real.sqrt (x * x + y * y + z * z))]
    exact div_le_one_of_le₀ hyle (by linarith)
  rw [if_neg hny]
  rfl

lemma cubeToSphereUV_isSome_of_normSq (p : Point3) (h : 1 ≤ normSq p) :
    (cubeToSphereUV (castPoint p)).isSome = true := by
  have h' : (1 : ℝ) ≤ (p.1 : ℝ) * (p.1 : ℝ) + (p.2.1 : ℝ) * (p.2.1 : ℝ) +
      (p.2.2 : ℝ) * (p.2.2 : ℝ) := by
    have hc : ((1 : ℚ) : ℝ) ≤ ((normSq p : ℚ) : ℝ) := by exact_mod_cast h
    simpa [normSq] using hc
  exact cubeToSphereUV_isSome_of_radicand _ _ _ h'

lemma lerp3D_coord1 (a b : Point3) (t c : ℚ) (ha : a.1 = c) (hb : b.1 = c) :
    (lerp3D a b t).1 = c := by
  simp [lerp3D, ha, hb]

lemma lerp3D_coord2 (a b : Point3) (t c : ℚ) (ha : a.2.1 = c) (hb : b.2.1 = c) :
    (lerp3D a b t).2.1 = c := by
  simp [lerp3D, ha, hb]

lemma lerp3D_coord3 (a b : Point3) (t c : ℚ) (ha : a.2.2 = c) (hb : b.2.2 = c) :
    (lerp3D a b t).2.2 = c := by
  simp [lerp3D, ha, hb]

lemma normSq_ge_one_coord1 (p : Point3) (c : ℚ) (hc : c = 1 ∨ c = -1)
    (h : p.1 = c) : 1 ≤ normSq p := by
  rcases hc with rfl | rfl <;>
    (simp only [normSq, h]
     nlinarith [mul_self_nonneg p.2.1, mul_self_nonneg p.2.2])

lemma normSq_ge_one_coord2 (p : Point3) (c : ℚ) (hc : c = 1 ∨ c = -1)
    (h : p.2.1 = c) : 1 ≤ normSq p := by
  rcases hc with rfl | rfl <;>
    (simp only [normSq, h]
     nlinarith [mul_self_nonneg p.1, mul_self_nonneg p.2.2])

lemma normSq_ge_one_coord3 (p : Point3) (c : ℚ) (hc : c = 1 ∨ c = -1)
    (h : p.2.2 = c) : 1 ≤ normSq p := by
  rcases hc with rfl | rfl <;>
    (simp only [normSq, h]
     nlinarith [mul_self_nonneg p.1, mul_self_nonneg p.2.1])

/-- A face quad of the unit cube: all four corners share one coordinate
whose value is 1 or -1. -/
def UnitFaceQuad (v0 v1 v2 v3 : Point3) : Prop :=
  (∃ c, (c = 1 ∨ c = -1) ∧ v0.1 = c ∧ v1.1 = c ∧ v2.1 = c ∧ v3.1 = c) ∨
  (∃ c, (c = 1 ∨ c = -1) ∧ v0.2.1 = c ∧ v1.2.1 = c ∧ v2.2.1 = c ∧ v3.2.1 = c) ∨
  (∃ c, (c = 1 ∨ c = -1) ∧ v0.2.2 = c ∧ v1.2.2 = c ∧ v2.2.2 = c ∧ v3.2.2 = c)

lemma normSq_stripColumn_ge_one (v0 v1 v2 v3 : Point3)
    (h : UnitFaceQuad v0 v1 v2 v3) (sub i j : ℕ) :
    1 ≤ normSq (stripColumn v0 v1 v2 v3 sub i j).1 ∧
    1 ≤ normSq (stripColumn v0 v1 v2 v3 sub i j).2 := by
  rcases h with ⟨c, hc, h0, h1, h2, h3⟩ | ⟨c, hc, h0, h1, h2, h3⟩ |
      ⟨c, hc, h0, h1, h2, h3⟩
  · exact ⟨normSq_ge_one_coord1 _ c hc
        (lerp3D_coord1 _ _ _ c (lerp3D_coord1 _ _ _ c h0 h1)
          (lerp3D_coord1 _ _ _ c h3 h2)),
      normSq_ge_one_coord1 _ c hc
        (lerp3D_coord1 _ _ _ c (lerp3D_coord1 _ _ _ c h0 h1)
          (lerp3D_coord1 _ _ _ c h3 h2))⟩
  · exact ⟨normSq_ge_one_coord2 _ c hc
        (lerp3D_coord2 _ _ _ c (lerp3D_coord2 _ _ _ c h0 h1)
          (lerp3D_coord2 _ _ _ c h3 h2)),
      normSq_ge_one_coord2 _ c hc
        (lerp3D_coord2 _ _ _ c (lerp3D_coord2 _ _ _ c h0 h1)
          (lerp3D_coord2 _ _ _ c h3 h2))⟩
  · exact ⟨normSq_ge_one_coord3 _ c hc
        (lerp3D_coord3 _ _ _ c (lerp3D_coord3 _ _ _ c h0 h1)
          (lerp3D_coord3 _ _ _ c h3 h2)),
      normSq_ge_one_coord3 _ c hc
        (lerp3D_coord3 _ _ _ c (lerp3D_coord3 _ _ _ c h0 h1)
          (lerp3D_coord3 _ _ _ c h3 h2))⟩

/-- Claim C10: every vertex emitted by the spherical path for any face of
the faces dict has squared norm at least 1 (one coordinate of the
bilinear interpolation is identically 1 or -1), so the normalization in
cubeToSphereUV divides by a nonzero length and the asin argument stays in
[-1, 1]: the uv computation succeeds on every emitted point. -/
theorem drawFaceSpherical_safe :
    ∀ e ∈ faces, ∀ sub : ℕ, 1 ≤ sub →
    ∀ strip ∈ drawFaceSpherical sub e.2.1, ∀ pq ∈ strip,
      (1 ≤ normSq pq.1 ∧ (cubeToSphereUV (castPoint pq.1)).isSome = true) ∧
      (1 ≤ normSq pq.2 ∧ (cubeToSphereUV (castPoint pq.2)).isSome = true) := by
  intro e he sub _hsub strip hstrip pq hpq
  rw [show drawFaceSpherical sub e.2.1 =
      (List.range sub).map (fun i => (List.range (sub + 1)).map
        (fun j => stripColumn (getV (e.2.1.getD 0 0)) (getV (e.2.1.getD 1 0))
          (getV (e.2.1.getD 2 0)) (getV (e.2.1.getD 3 0)) sub i j)) from rfl,
    List.mem_map] at hstrip
  obtain ⟨i, _, rfl⟩ := hstrip
  rw [List.mem_map] at hpq
  obtain ⟨j, _, rfl⟩ := hpq
  have hq : UnitFaceQuad (getV (e.2.1.getD 0 0)) (getV (e.2.1.getD 1 0))
      (getV (e.2.1.getD 2 0)) (getV (e.2.1.getD 3 0)) := by
    simp only [faces, List.mem_cons, List.not_mem_nil, or_false] at he
    rcases he with rfl | rfl | rfl | rfl | rfl | rfl
    · exact Or.inr (Or.inr ⟨1, Or.inl rfl, rfl, rfl, rfl, rfl⟩)
    · exact Or.inr (Or.inr ⟨-1, Or.inr rfl, rfl, rfl, rfl, rfl⟩)
    · exact Or.inl ⟨-1, Or.inr rfl, rfl, rfl, rfl, rfl⟩
    · exact Or.inl ⟨1, Or.inl rfl, rfl, rfl, rfl, rfl⟩
    · exact Or.inr (Or.inl ⟨1, Or.inl rfl, rfl, rfl, rfl, rfl⟩)
    · exact Or.inr (Or.inl ⟨-1, Or.inr rfl, rfl, rfl, rfl, rfl⟩)
  obtain ⟨hA, hB⟩ := normSq_stripColumn_ge_one _ _ _ _ hq sub i j
  exact ⟨⟨hA, cubeToSphereUV_isSome_of_normSq _ hA⟩,
    ⟨hB, cubeToSphereUV_isSome_of_normSq _ hB⟩⟩

theorem drawFaceSpherical_safe_witness :
    (("ft", ([0, 1, 2, 3], [((0 : ℚ), (0 : ℚ)), (1, 0), (1, 1), (0, 1)])) ∈ faces) ∧
    (1 ≤ 1) ∧
    ([(((-1 : ℚ), (-1 : ℚ), (1 : ℚ)), ((-1 : ℚ), (1 : ℚ), (1 : ℚ))),
      (((1 : ℚ), (-1 : ℚ), (1 : ℚ)), ((1 : ℚ), (1 : ℚ), (1 : ℚ)))] ∈
        drawFaceSpherical 1 [0, 1, 2, 3]) ∧
    ((((-1 : ℚ), (-1 : ℚ), (1 : ℚ)), ((-1 : ℚ), (1 : ℚ), (1 : ℚ))) ∈
      [(((-1 : ℚ), (-1 : ℚ), (1 : ℚ)), ((-1 : ℚ), (1 : ℚ), (1 : ℚ))),
       (((1 : ℚ), (-1 : ℚ), (1 : ℚ)), ((1 : ℚ), (1 : ℚ), (1 : ℚ)))]) ∧
    ((1 ≤ normSq ((-1 : ℚ), (-1 : ℚ), (1 : ℚ)) ∧
      (cubeToSphereUV (castPoint ((-1 : ℚ), (-1 : ℚ), (1 : ℚ)))).isSome = true) ∧
     (1 ≤ normSq ((-1 : ℚ), (1 : ℚ), (1 : ℚ)) ∧
      (cubeToSphereUV (castPoint ((-1 : ℚ), (1 : ℚ), (1 : ℚ)))).isSome = true)) :=
  ⟨by simp [faces], le_rfl,
   by norm_num [drawFaceSpherical, stripColumn, getV, vertices, lerp3D,
     List.range_succ],
   by norm_num,
   drawFaceSpherical_safe
     ("ft", ([0, 1, 2, 3], [((0 : ℚ), (0 : ℚ)), (1, 0), (1, 1), (0, 1)]))
     (by simp [faces]) 1 le_rfl
     [(((-1 : ℚ), (-1 : ℚ), (1 : ℚ)), ((-1 : ℚ), (1 : ℚ), (1 : ℚ))),
      (((1 : ℚ), (-1 : ℚ), (1 : ℚ)), ((1 : ℚ), (1 : ℚ), (1 : ℚ)))]
     (by norm_num [drawFaceSpherical, stripColumn, getV, vertices, lerp3D,
       List.range_succ])
     (((-1 : ℚ), (-1 : ℚ), (1 : ℚ)), ((-1 : ℚ), (1 : ℚ), (1 : ℚ)))
     (by norm_num)⟩

end RSBP
